import Mathlib

/-!
Verification development for src/L-QLES/l-qles.py, the CLI driver that
assembles a discrete Laplacian system, optionally reorders it, solves it,
optionally runs eigenvalue diagnostics, persists the results and plots.

Modelling conventions:
* Python strings are lists of characters (PyStr).
* numpy arrays are functions out of Fin n into the exact rationals; allclose
  is exact equality, which abstracts the floating tolerance while keeping
  track of exactly which operands the program compares.
* External collaborators that are not part of the driver (the sparse solver
  spsolve, the numpy eigvals routine, and the repository modules mesh,
  matvec, save, plot that are not in the sources) are oracle parameters or
  observable events.  The reorder module is modelled from the spec, see def
  reorder below.
-/

namespace LQles

/-! ## Python strings and the getopt library (Lib/getopt.py), used on line 62 -/

abbrev PyStr := List Char

/-- Python str.startswith on list-of-char strings. -/
def strStarts : PyStr → PyStr → Bool
  | _, [] => true
  | [], _ :: _ => false
  | c :: s, d :: p => c == d && strStarts s p

/-- getopt.short_has_arg: scan the short option string; a character followed by a
colon takes an argument.  An unknown character raises GetoptError. -/
def short_has_arg (opt : Char) : PyStr → Except String Bool
  | [] => Except.error "option not recognized"
  | c :: rest =>
    if opt == c && c != ':' then
      Except.ok (match rest with | ':' :: _ => true | _ => false)
    else short_has_arg opt rest

/-- getopt.do_shorts, restructured so that instead of returning the remaining
argument list it reports whether the next command-line word was consumed as an
option argument (true exactly when Python pops args[0]). -/
def do_shorts (opts : List (PyStr × PyStr)) (optstring : PyStr) (shortopts : PyStr)
    (args : List PyStr) : Except String (List (PyStr × PyStr) × Bool) :=
  match optstring with
  | [] => Except.ok (opts, false)
  | opt :: rest =>
    match short_has_arg opt shortopts with
    | Except.error e => Except.error e
    | Except.ok true =>
      match rest with
      | [] =>
        match args with
        | [] => Except.error "option requires argument"
        | a :: _ => Except.ok (opts ++ [([ '-', opt], a)], true)
      | r :: rs => Except.ok (opts ++ [([ '-', opt], r :: rs)], false)
    | Except.ok false => do_shorts (opts ++ [([ '-', opt], [])]) rest shortopts args

/-- Split a long option at its first equals sign (Python opt.index applied on line
do_longs of getopt). -/
def splitAtEq : PyStr → Option (PyStr × PyStr)
  | [] => none
  | c :: rest =>
    if c == '=' then some ([], rest)
    else
      match splitAtEq rest with
      | none => none
      | some (l, r) => some (c :: l, r)

/-- getopt.long_has_args: prefix matching of a long option name against the
declared long options. -/
def long_has_args (opt : PyStr) (longopts : List PyStr) : Except String (Bool × PyStr) :=
  let possibilities := longopts.filter (fun o => strStarts o opt)
  if possibilities.isEmpty then Except.error "option not recognized"
  else if possibilities.contains opt then Except.ok (false, opt)
  else if possibilities.contains (opt ++ [ '=']) then Except.ok (true, opt)
  else if 1 < possibilities.length then Except.error "option not a unique prefix"
  else
    match possibilities with
    | [] => Except.error "option not recognized"
    | u :: _ =>
      if u.getLast? == some '=' then Except.ok (true, u.dropLast)
      else Except.ok (false, u)

/-- getopt.do_longs, with the same consumed-a-word convention as do_shorts. -/
def do_longs (opts : List (PyStr × PyStr)) (opt0 : PyStr) (longopts : List PyStr)
    (args : List PyStr) : Except String (List (PyStr × PyStr) × Bool) :=
  let pr := match splitAtEq opt0 with
    | none => (opt0, (none : Option PyStr))
    | some (l, r) => (l, some r)
  match long_has_args pr.1 longopts with
  | Except.error e => Except.error e
  | Except.ok (hasArg, opt2) =>
    if hasArg then
      match pr.2 with
      | none =>
        match args with
        | [] => Except.error "option requires argument"
        | a :: _ => Except.ok (opts ++ [([ '-', '-'] ++ opt2, a)], true)
      | some v => Except.ok (opts ++ [([ '-', '-'] ++ opt2, v)], false)
    else
      match pr.2 with
      | some _ => Except.error "option must not have an argument"
      | none => Except.ok (opts ++ [([ '-', '-'] ++ opt2, [])], false)

/-- Main loop of getopt.getopt: process leading option words, stopping at the
first non-option word, at a bare dash, or after a double dash.  The arm that
pairs a consumed word with an empty remainder is unreachable, because do_longs
and do_shorts only report true after reading the head of that remainder. -/
def getoptLoop (shortopts : PyStr) (longopts : List PyStr) :
    List (PyStr × PyStr) → List PyStr → Except String (List (PyStr × PyStr) × List PyStr)
  | opts, [] => Except.ok (opts, [])
  | opts, a0 :: rest =>
    if strStarts a0 [ '-'] = true ∧ a0 ≠ [ '-'] then
      if a0 = [ '-', '-'] then Except.ok (opts, rest)
      else if strStarts a0 [ '-', '-'] = true then
        match do_longs opts (a0.drop 2) longopts rest with
        | Except.error e => Except.error e
        | Except.ok (o2, true) =>
          match rest with
          | [] => Except.ok (o2, [])
          | _ :: rest2 => getoptLoop shortopts longopts o2 rest2
        | Except.ok (o2, false) => getoptLoop shortopts longopts o2 rest
      else
        match do_shorts opts (a0.drop 1) shortopts rest with
        | Except.error e => Except.error e
        | Except.ok (o2, true) =>
          match rest with
          | [] => Except.ok (o2, [])
          | _ :: rest2 => getoptLoop shortopts longopts o2 rest2
        | Except.ok (o2, false) => getoptLoop shortopts longopts o2 rest
    else Except.ok (opts, a0 :: rest)

/-- getopt.getopt. -/
def getopt (args : List PyStr) (shortopts : PyStr) (longopts : List PyStr) :
    Except String (List (PyStr × PyStr) × List PyStr) :=
  getoptLoop shortopts longopts [] args

/-! ## read_args, lines 51 to 103 of l-qles.py -/

/-- The short option specification of line 62. -/
def shortSpec : PyStr := [ 'h', 'm', 's', 'd', 'e', 'j', 'r', 'i', ':', 'c', ':']

/-- The long option specification of line 62. -/
def longSpec : List PyStr := [[ 'i', '='], [ 'c', '=']]

def hOpt : PyStr := [ '-', 'h']

def iOpt : PyStr := [ '-', 'i']

def iiOpt : PyStr := [ '-', '-', 'i']

def cOpt : PyStr := [ '-', 'c']

/-- The configuration produced by read_args (its return tuple on line 103). -/
structure Args where
  inputfile : PyStr
  mplot : Bool
  splot : Bool
  cut3d : PyStr
  degen : Bool
  eigen : Bool
  order : Bool
  psplt : Bool
deriving DecidableEq

/-- Defaults assigned on lines 52 to 59. -/
def defaultArgs : Args :=
  { inputfile := [], mplot := false, splot := false, cut3d := [ 'x'],
    degen := false, eigen := false, order := false, psplt := false }

/-- The option loop of lines 68 to 97.  Returns none when the -h branch prints the
help text and calls sys.exit with no argument. -/
def procOpts : List (PyStr × PyStr) → Args → Option Args
  | [], acc => some acc
  | (opt, arg) :: rest, acc =>
    if opt = [ '-', 'h'] then none
    else if opt = [ '-', 'c'] ∨ opt = [ '-', '-', 'c'] then procOpts rest { acc with cut3d := arg }
    else if opt = [ '-', 'd'] ∨ opt = [ '-', '-', 'd'] then procOpts rest { acc with degen := true }
    else if opt = [ '-', 'e'] ∨ opt = [ '-', '-', 'e'] then procOpts rest { acc with eigen := true }
    else if opt = [ '-', 'i'] ∨ opt = [ '-', '-', 'i'] then procOpts rest { acc with inputfile := arg }
    else if opt = [ '-', 'm'] ∨ opt = [ '-', '-', 'm'] then procOpts rest { acc with mplot := true }
    else if opt = [ '-', 'j'] ∨ opt = [ '-', '-', 'j'] then procOpts rest { acc with psplt := true }
    else if opt = [ '-', 'r'] ∨ opt = [ '-', '-', 'r'] then procOpts rest { acc with order := true }
    else if opt = [ '-', 's'] ∨ opt = [ '-', '-', 's'] then procOpts rest { acc with splot := true }
    else procOpts rest acc

/-- Observable outcome of read_args: either the process exits with a code or the
parsed configuration is returned to laplace. -/
inductive ReadArgsResult where
  | exit (code : Nat)
  | ok (cfg : Args)
deriving DecidableEq

/-- read_args, lines 51 to 103: a getopt failure exits with code 2 (line 66), the
-h branch exits with code 0 (sys.exit with no argument, line 81), a missing input
file exits with code 3 (line 101), otherwise the flags are returned.  The file
system is an oracle isfile standing for os.path.isfile. -/
def read_args (isfile : PyStr → Bool) (argv : List PyStr) : ReadArgsResult :=
  match getopt argv shortSpec longSpec with
  | Except.error _ => ReadArgsResult.exit 2
  | Except.ok (opts, _) =>
    match procOpts opts defaultArgs with
    | none => ReadArgsResult.exit 0
    | some cfg =>
      if isfile cfg.inputfile then ReadArgsResult.ok cfg else ReadArgsResult.exit 3

/-! ## The solve pipeline, lines 109 to 177 of l-qles.py

The mesh file, the generated mesh and the assembled system are produced by the
external modules mesh and matvec; for the driver they amount to a square matrix
a and right-hand side b of some size n, so they enter the model as oracle data
in Externals, together with the scipy sparse solver and numpy eigvals. -/

abbrev Vec (n : Nat) := Fin n → ℚ

abbrev Mat (n : Nat) := Fin n → Fin n → ℚ

/-- np.dot of a matrix and a vector (line 143). -/
def dotMV {n : Nat} (a : Mat n) (v : Vec n) : Vec n := fun i => ∑ j, a i j * v j

/-- np.matmul of a matrix and a vector (line 148); the same contraction. -/
def matmulMV {n : Nat} (q : Mat n) (s : Vec n) : Vec n := dotMV q s

/-- Matrix times matrix contraction. -/
def matMulM {n : Nat} (a b : Mat n) : Mat n := fun i k => ∑ j, a i j * b j k

/-- np.transpose (line 158). -/
def transposeM {n : Nat} (a : Mat n) : Mat n := fun i j => a j i

/-- np.identity of the row count of a (line 138). -/
def identityM (n : Nat) : Mat n := fun i j => if i = j then 1 else 0

/-- np.allclose over exact rationals: entrywise equality (line 143).  The
floating tolerances are abstracted to exact comparison. -/
def allclose {n : Nat} (u v : Vec n) : Bool := decide (∀ i, u i = v i)

/-- The 0-1 matrix of a permutation p, with entry one at row p j, column j. -/
def permMat {n : Nat} (p : Equiv.Perm (Fin n)) : Mat n :=
  fun i j => if i = p j then 1 else 0

/-- Modelled from the spec: the reorder module (imported on line 45) is not among
the sources.  Per spec section 4.3 it produces a true permutation matrix Q and
returns the triple of Q, the permuted matrix Q A Qt and the permuted vector
Q b.  The mesh-derived permutation itself is left as a parameter p. -/
def reorder {n : Nat} (p : Equiv.Perm (Fin n)) (a : Mat n) (b : Vec n) :
    Mat n × Mat n × Vec n :=
  (permMat p, matMulM (matMulM (permMat p) a) (transposeM (permMat p)), dotMV (permMat p) b)

/-- np.block of the four quadrants zeros, a, transpose of a, zeros (line 158). -/
def blockSym {n : Nat} (a : Mat n) : Mat (2 * n) := fun i j =>
  if hi : (i : Nat) < n then
    if hj : (j : Nat) < n then 0
    else a ⟨i, hi⟩ ⟨(j : Nat) - n, by omega⟩
  else
    if hj : (j : Nat) < n then a ⟨j, hj⟩ ⟨(i : Nat) - n, by omega⟩
    else 0

/-- Python min over a nonempty array, with junk value 0 for the empty array on
which numpy would raise. -/
def listMin : List ℚ → ℚ
  | [] => 0
  | x :: xs => xs.foldl min x

/-- Python max over a nonempty array, with junk value 0 for the empty array. -/
def listMax : List ℚ → ℚ
  | [] => 0
  | x :: xs => xs.foldl max x

/-- The quantities computed by the eigen block, lines 155 to 166. -/
structure Diag (n : Nat) where
  asym : Mat (2 * n)
  evals : List ℚ
  emin : ℚ
  emax : ℚ
  kappa : ℚ

/-- Lines 157 to 163: build the symmetrised block matrix from the matrix a in
scope, hand it to the eigvals oracle, and form min, max and condition number of
the absolute eigenvalues. -/
def mkDiag {n : Nat} (a : Mat n) (ev : Mat (2 * n) → List ℚ) : Diag n :=
  let asym := blockSym a
  let evals := ev asym
  let emin := listMin (evals.map (fun x => |x|))
  let emax := listMax (evals.map (fun x => |x|))
  { asym := asym, evals := evals, emin := emin, emax := emax, kappa := emax / emin }

/-- The external inputs of one run: the assembled system from matvec, the
mesh-derived permutation used by reorder, the sparse solver oracle (spsolve,
applied to the csr representation of the matrix in scope) and the numpy
eigvals oracle. -/
structure Externals (n : Nat) where
  A : Mat n
  b : Vec n
  perm : Equiv.Perm (Fin n)
  solver : Mat n → Vec n → Vec n
  eigvals : Mat (2 * n) → List ℚ

/-- Observable calls of the run, in program order: the configuration read, mesh
generation, operator assembly, the optional reorder, the solve, the two
persistence writes with their full payloads (lines 151 and 152), the optional
eigen diagnostics, and the optional plots with the data handed to them. -/
inductive Event (n : Nat) where
  | configE
  | meshE
  | assembleE
  | reorderE
  | solveE
  | saveNpzE (a : Mat n) (b : Vec n) (s : Vec n) (q : Mat n) (status : Bool)
  | saveBinE (a : Mat n) (b : Vec n) (s : Vec n) (q : Mat n) (status : Bool)
  | diagE
  | plotSolE (s : Vec n) (status : Bool)
  | plotMatE

/-- Stage names, the payload-free shadows of events. -/
inductive Tag where
  | configT
  | meshT
  | assembleT
  | reorderT
  | solveT
  | saveNpzT
  | saveBinT
  | diagT
  | plotSolT
  | plotMatT
deriving DecidableEq

/-- Forget the payload of an event. -/
def tagOf {n : Nat} : Event n → Tag
  | Event.configE => Tag.configT
  | Event.meshE => Tag.meshT
  | Event.assembleE => Tag.assembleT
  | Event.reorderE => Tag.reorderT
  | Event.solveE => Tag.solveT
  | Event.saveNpzE _ _ _ _ _ => Tag.saveNpzT
  | Event.saveBinE _ _ _ _ _ => Tag.saveBinT
  | Event.diagE => Tag.diagT
  | Event.plotSolE _ _ => Tag.plotSolT
  | Event.plotMatE => Tag.plotMatT

/-- Everything observable about one run of the pipeline. -/
structure Run (n : Nat) where
  q : Mat n
  aSolved : Mat n
  bSolved : Vec n
  sRaw : Vec n
  status : Bool
  s : Vec n
  diag : Option (Diag n)
  events : List (Event n)

/-- Lines 130 to 138: with order set, the variables a and b are overwritten with
the outputs of reorder together with the permutation q; otherwise q is the
identity of the row count of a and a, b stay untouched. -/
def solvedTriple {n : Nat} (cfg : Args) (ext : Externals n) : Mat n × Mat n × Vec n :=
  if cfg.order then reorder ext.perm ext.A ext.b
  else (identityM n, ext.A, ext.b)

/-- Lines 109 to 177 after read_args: assemble (oracle), optionally reorder
(overwriting a and b), solve via the solver oracle on the matrix and vector in
scope, compute status with np.allclose on those same overwritten a and b and
the raw solver output (line 143), permute the solution with q when order is set
(line 148), write the two persistence files (lines 151 and 152), then run the
optional eigen diagnostics on the matrix a in scope (lines 155 to 166), then
the optional plots (lines 169 to 177). -/
def pipeline {n : Nat} (cfg : Args) (ext : Externals n) : Run n :=
  let q := (solvedTriple cfg ext).1
  let a1 := (solvedTriple cfg ext).2.1
  let b1 := (solvedTriple cfg ext).2.2
  let sRaw := ext.solver a1 b1
  let status := allclose (dotMV a1 sRaw) b1
  let s := if cfg.order then matmulMV q sRaw else sRaw
  { q := q, aSolved := a1, bSolved := b1, sRaw := sRaw, status := status, s := s,
    diag := if cfg.eigen then some (mkDiag a1 ext.eigvals) else none,
    events :=
      [Event.configE, Event.meshE, Event.assembleE]
      ++ (if cfg.order then [Event.reorderE] else [])
      ++ [Event.solveE, Event.saveNpzE a1 b1 s q status, Event.saveBinE a1 b1 s q status]
      ++ (if cfg.eigen then [Event.diagE] else [])
      ++ (if cfg.splot then [Event.plotSolE s status] else [])
      ++ (if cfg.mplot then [Event.plotMatE] else []) }

/-- The whole program laplace, lines 109 to 177: read the arguments, and unless
read_args exited, run the pipeline on the externals of the named case. -/
def laplace {n : Nat} (isfile : PyStr → Bool) (argv : List PyStr) (ext : Externals n) :
    Option (Run n) :=
  match read_args isfile argv with
  | ReadArgsResult.exit _ => none
  | ReadArgsResult.ok cfg => some (pipeline cfg ext)

/-- Stage names of a run in execution order. -/
def runTags {n : Nat} (r : Run n) : List Tag := r.events.map tagOf

/-- First position of a stage name in a stage list. -/
def idxTag (t : Tag) : List Tag → Option Nat
  | [] => none
  | x :: xs => if x = t then some 0 else (idxTag t xs).map (fun k => k + 1)

/-- Whether stage a occurs and its first occurrence is before that of stage b. -/
def precedesB (ts : List Tag) (a b : Tag) : Bool :=
  match idxTag a ts, idxTag b ts with
  | some i, some j => decide (i < j)
  | _, _ => false

/-! ## Concrete runs used by counterexamples and witnesses -/

/-- The three cycle sending 0 to 1, 1 to 2, 2 to 0. -/
def cyc3 : Equiv.Perm (Fin 3) :=
  ⟨fun i => ⟨(i.val + 1) % 3, by omega⟩, fun i => ⟨(i.val + 2) % 3, by omega⟩,
    by decide, by decide⟩

/-- The transposition of the two points of Fin 2. -/
def swap2 : Equiv.Perm (Fin 2) :=
  ⟨fun i => ⟨1 - i.val, by omega⟩, fun i => ⟨1 - i.val, by omega⟩, by decide, by decide⟩

/-- A length three vector from its entries. -/
def vec3 (x y z : ℚ) : Vec 3 :=
  fun i => if i.val = 0 then x else if i.val = 1 then y else z

/-- Flags with only reordering enabled. -/
def cfgOrder : Args := { defaultArgs with order := true }

/-- Flags with reordering and eigen diagnostics enabled. -/
def cfgOrderEigen : Args := { defaultArgs with order := true, eigen := true }

/-- Flags with only eigen diagnostics enabled. -/
def cfgEigenOnly : Args := { defaultArgs with eigen := true }

/-- Flags with both plot switches enabled. -/
def cfgPlots : Args := { defaultArgs with splot := true, mplot := true }

/-- Externals for the C1 counterexample: identity matrix, rhs 0 1 2, the three
cycle, and a solver oracle answering the permuted rhs exactly. -/
def extC1 : Externals 3 :=
  { A := identityM 3, b := vec3 0 1 2, perm := cyc3,
    solver := fun _ _ => vec3 2 0 1, eigvals := fun _ => [] }

/-- Externals for the C2 counterexample: identity matrix, the three cycle, and a
solver oracle answering the first basis vector. -/
def extC2 : Externals 3 :=
  { A := identityM 3, b := vec3 0 0 0, perm := cyc3,
    solver := fun _ _ => vec3 1 0 0, eigvals := fun _ => [] }

/-- A two by two matrix with four distinct entries. -/
def matC3 : Mat 2 :=
  fun i j => if i.val = 0 then (if j.val = 0 then 1 else 2) else (if j.val = 0 then 3 else 4)

/-- Externals for the C3 counterexample: distinct entries and the swap. -/
def extC3 : Externals 2 :=
  { A := matC3, b := fun _ => 0, perm := swap2,
    solver := fun _ _ => fun _ => 0, eigvals := fun _ => [1] }

/-- Externals of size one whose solver answer fails the residual check. -/
def extBad : Externals 1 :=
  { A := fun _ _ => 1, b := fun _ => 1, perm := Equiv.refl (Fin 1),
    solver := fun _ _ => fun _ => 0, eigvals := fun _ => [] }

/-- Well behaved externals of size one with a two element eigenvalue list. -/
def ext1 : Externals 1 :=
  { A := fun _ _ => 1, b := fun _ => 1, perm := Equiv.refl (Fin 1),
    solver := fun _ _ => fun _ => 1, eigvals := fun _ => [1, -2] }

/-- The asym entry of the diagnostics of a run, when diagnostics ran. -/
def diagAsymAt {n : Nat} (r : Run n) (i j : Fin (2 * n)) : Option ℚ :=
  r.diag.map (fun d => d.asym i j)

/-! ## Permutation algebra and pipeline projection lemmas -/

lemma bool_eq_of_iff {a b : Bool} (h : (a = true) ↔ (b = true)) : a = b := by
  cases a <;> cases b <;> simp_all

lemma allclose_eq_true_iff {n : Nat} (u v : Vec n) :
    allclose u v = true ↔ ∀ i, u i = v i := by
  simp [allclose]

lemma dotMV_permMat {n : Nat} (p : Equiv.Perm (Fin n)) (v : Vec n) (i : Fin n) :
    dotMV (permMat p) v i = v (p.symm i) := by
  unfold dotMV permMat
  have h : ∀ j : Fin n, (if i = p j then (1 : ℚ) else 0) * v j
      = if p.symm i = j then v j else 0 := by
    intro j
    by_cases hj : i = p j
    · rw [if_pos hj, one_mul, if_pos (by rw [hj, Equiv.symm_apply_apply])]
    · rw [if_neg hj, zero_mul, if_neg (fun hc => hj (by rw [← hc, Equiv.apply_symm_apply]))]
  rw [Finset.sum_congr rfl (fun j _ => h j), Finset.sum_ite_eq]
  simp

lemma dotMV_transposePermMat {n : Nat} (p : Equiv.Perm (Fin n)) (v : Vec n) (i : Fin n) :
    dotMV (transposeM (permMat p)) v i = v (p i) := by
  unfold dotMV transposeM permMat
  have h : ∀ j : Fin n, (if j = p i then (1 : ℚ) else 0) * v j
      = if j = p i then v j else 0 := by
    intro j
    by_cases hj : j = p i <;> simp [hj]
  rw [Finset.sum_congr rfl (fun j _ => h j), Finset.sum_ite_eq']
  simp

lemma matMulM_permMat_left {n : Nat} (p : Equiv.Perm (Fin n)) (a : Mat n) (i j : Fin n) :
    matMulM (permMat p) a i j = a (p.symm i) j :=
  dotMV_permMat p (fun k => a k j) i

lemma matMulM_permMatT_right {n : Nat} (p : Equiv.Perm (Fin n)) (a : Mat n) (i j : Fin n) :
    matMulM a (transposeM (permMat p)) i j = a i (p.symm j) := by
  unfold matMulM transposeM permMat
  have h : ∀ k : Fin n, a i k * (if j = p k then (1 : ℚ) else 0)
      = if p.symm j = k then a i k else 0 := by
    intro k
    by_cases hk : j = p k
    · rw [if_pos hk, mul_one, if_pos (by rw [hk, Equiv.symm_apply_apply])]
    · rw [if_neg hk, mul_zero, if_neg (fun hc => hk (by rw [← hc, Equiv.apply_symm_apply]))]
  rw [Finset.sum_congr rfl (fun k _ => h k), Finset.sum_ite_eq]
  simp

lemma reorder_aEntry {n : Nat} (p : Equiv.Perm (Fin n)) (a : Mat n) (b : Vec n) (i j : Fin n) :
    (reorder p a b).2.1 i j = a (p.symm i) (p.symm j) := by
  show matMulM (matMulM (permMat p) a) (transposeM (permMat p)) i j = _
  rw [matMulM_permMatT_right, matMulM_permMat_left]

lemma reorder_bEntry {n : Nat} (p : Equiv.Perm (Fin n)) (a : Mat n) (b : Vec n) (i : Fin n) :
    (reorder p a b).2.2 i = b (p.symm i) :=
  dotMV_permMat p b i

lemma matmulMV_permMat {n : Nat} (p : Equiv.Perm (Fin n)) (s : Vec n) :
    matmulMV (permMat p) s = fun i => s (p.symm i) :=
  funext (dotMV_permMat p s)

lemma matmulMV_transposePermMat {n : Nat} (p : Equiv.Perm (Fin n)) (s : Vec n) :
    matmulMV (transposeM (permMat p)) s = fun i => s (p i) :=
  funext (dotMV_transposePermMat p s)

lemma dotMV_reorder_apply {n : Nat} (p : Equiv.Perm (Fin n)) (a : Mat n) (b s : Vec n)
    (i : Fin n) :
    dotMV (reorder p a b).2.1 s (p i) = dotMV a (fun k => s (p k)) i := by
  unfold dotMV
  have h : ∀ j : Fin n, (reorder p a b).2.1 (p i) j * s j
      = (fun k => a i k * s (p k)) (p.symm j) := by
    intro j
    rw [reorder_aEntry, Equiv.symm_apply_apply]
    simp [Equiv.apply_symm_apply]
  rw [Finset.sum_congr rfl (fun j _ => h j)]
  exact Equiv.sum_comp p.symm (fun k => a i k * s (p k))

lemma allclose_reorder {n : Nat} (p : Equiv.Perm (Fin n)) (a : Mat n) (b s : Vec n) :
    allclose (dotMV (reorder p a b).2.1 s) (reorder p a b).2.2
      = allclose (dotMV a (fun k => s (p k))) b := by
  apply bool_eq_of_iff
  rw [allclose_eq_true_iff, allclose_eq_true_iff]
  constructor
  · intro h i
    have hi := h (p i)
    rw [reorder_bEntry, Equiv.symm_apply_apply, dotMV_reorder_apply] at hi
    exact hi
  · intro h i
    have key : dotMV (reorder p a b).2.1 s (p (p.symm i)) = (reorder p a b).2.2 (p (p.symm i)) := by
      rw [dotMV_reorder_apply, reorder_bEntry, Equiv.symm_apply_apply]
      exact h (p.symm i)
    rwa [Equiv.apply_symm_apply] at key

lemma pipeline_status {n : Nat} (cfg : Args) (ext : Externals n) :
    (pipeline cfg ext).status
      = allclose (dotMV (pipeline cfg ext).aSolved (pipeline cfg ext).sRaw)
          (pipeline cfg ext).bSolved := rfl

lemma pipeline_s {n : Nat} (cfg : Args) (ext : Externals n) :
    (pipeline cfg ext).s
      = if cfg.order then matmulMV (pipeline cfg ext).q (pipeline cfg ext).sRaw
        else (pipeline cfg ext).sRaw := rfl

lemma pipeline_diag {n : Nat} (cfg : Args) (ext : Externals n) :
    (pipeline cfg ext).diag
      = if cfg.eigen then some (mkDiag (pipeline cfg ext).aSolved ext.eigvals) else none := rfl

lemma pipeline_events {n : Nat} (cfg : Args) (ext : Externals n) :
    (pipeline cfg ext).events =
      [Event.configE, Event.meshE, Event.assembleE]
      ++ (if cfg.order then [Event.reorderE] else [])
      ++ [Event.solveE,
          Event.saveNpzE (pipeline cfg ext).aSolved (pipeline cfg ext).bSolved
            (pipeline cfg ext).s (pipeline cfg ext).q (pipeline cfg ext).status,
          Event.saveBinE (pipeline cfg ext).aSolved (pipeline cfg ext).bSolved
            (pipeline cfg ext).s (pipeline cfg ext).q (pipeline cfg ext).status]
      ++ (if cfg.eigen then [Event.diagE] else [])
      ++ (if cfg.splot then [Event.plotSolE (pipeline cfg ext).s (pipeline cfg ext).status] else [])
      ++ (if cfg.mplot then [Event.plotMatE] else []) := rfl

lemma pipeline_q_order {n : Nat} {cfg : Args} (ext : Externals n) (h : cfg.order = true) :
    (pipeline cfg ext).q = permMat ext.perm := by
  show (solvedTriple cfg ext).1 = _
  simp [solvedTriple, h, reorder]

lemma pipeline_aSolved_order {n : Nat} {cfg : Args} (ext : Externals n) (h : cfg.order = true) :
    (pipeline cfg ext).aSolved = (reorder ext.perm ext.A ext.b).2.1 := by
  show (solvedTriple cfg ext).2.1 = _
  simp [solvedTriple, h]

lemma pipeline_bSolved_order {n : Nat} {cfg : Args} (ext : Externals n) (h : cfg.order = true) :
    (pipeline cfg ext).bSolved = (reorder ext.perm ext.A ext.b).2.2 := by
  show (solvedTriple cfg ext).2.2 = _
  simp [solvedTriple, h]

lemma solvedTriple_noorder {n : Nat} {cfg : Args} (ext : Externals n) (h : cfg.order = false) :
    solvedTriple cfg ext = (identityM n, ext.A, ext.b) := by
  simp [solvedTriple, h]

/-- Embed an index into the top or left half of the doubled index range. -/
def finL {n : Nat} (i : Fin n) : Fin (2 * n) := ⟨i, by omega⟩

/-- Embed an index into the bottom or right half of the doubled index range. -/
def finR {n : Nat} (i : Fin n) : Fin (2 * n) := ⟨n + i, by omega⟩

lemma blockSym_LL {n : Nat} (a : Mat n) (i j : Fin n) :
    blockSym a (finL i) (finL j) = 0 := by
  unfold blockSym finL
  rw [dif_pos i.isLt, dif_pos j.isLt]

lemma blockSym_LR {n : Nat} (a : Mat n) (i j : Fin n) :
    blockSym a (finL i) (finR j) = a i j := by
  unfold blockSym finL finR
  rw [dif_pos i.isLt, dif_neg (by omega : ¬ ((n + (j : Nat)) < n))]
  congr 1
  simp

lemma blockSym_RL {n : Nat} (a : Mat n) (i j : Fin n) :
    blockSym a (finR i) (finL j) = a j i := by
  unfold blockSym finL finR
  rw [dif_neg (by omega : ¬ ((n + (i : Nat)) < n)), dif_pos j.isLt]
  congr 1
  simp

lemma blockSym_RR {n : Nat} (a : Mat n) (i j : Fin n) :
    blockSym a (finR i) (finR j) = 0 := by
  unfold blockSym finR
  rw [dif_neg (by omega : ¬ ((n + (i : Nat)) < n)),
    dif_neg (by omega : ¬ ((n + (j : Nat)) < n))]

/-! ## Lemmas about the option loop of read_args -/

lemma procOpts_none_iff (opts : List (PyStr × PyStr)) (acc : Args) :
    procOpts opts acc = none ↔ opts.any (fun oa => oa.1 == hOpt) = true := by
  induction opts generalizing acc with
  | nil => simp [procOpts]
  | cons oa rest ih =>
    obtain ⟨opt, arg⟩ := oa
    by_cases h : opt = [ '-', 'h']
    · subst h
      simp [procOpts, hOpt]
    · have hb : (opt == hOpt) = false := by
        rw [beq_eq_false_iff_ne]
        simpa [hOpt] using h
      simp only [procOpts, List.any_cons, hb, Bool.false_or]
      rw [if_neg h]
      split_ifs <;> exact ih _

lemma procOpts_no_input (opts : List (PyStr × PyStr)) :
    ∀ acc : Args,
      opts.all (fun oa => !(oa.1 == hOpt) && !(oa.1 == iOpt) && !(oa.1 == iiOpt)) = true →
      ∃ cfg, procOpts opts acc = some cfg ∧ cfg.inputfile = acc.inputfile := by
  induction opts with
  | nil => exact fun acc _ => ⟨acc, rfl, rfl⟩
  | cons oa rest ih =>
    intro acc hno
    obtain ⟨opt, arg⟩ := oa
    rw [List.all_cons, Bool.and_eq_true] at hno
    obtain ⟨hh, hrest⟩ := hno
    simp only [Bool.and_eq_true, Bool.not_eq_true', beq_eq_false_iff_ne] at hh
    have hneH : opt ≠ [ '-', 'h'] := by simpa [hOpt] using hh.1.1
    have hneI : opt ≠ [ '-', 'i'] := by simpa [iOpt] using hh.1.2
    have hneII : opt ≠ [ '-', '-', 'i'] := by simpa [iiOpt] using hh.2
    simp only [procOpts]
    rw [if_neg hneH]
    split_ifs with hc hd he hi hm hj hr hs
    · exact ih _ hrest
    · exact ih _ hrest
    · exact ih _ hrest
    · rcases hi with hi | hi
      · exact absurd hi hneI
      · exact absurd hi hneII
    · exact ih _ hrest
    · exact ih _ hrest
    · exact ih _ hrest
    · exact ih _ hrest
    · exact ih _ hrest

/-! ## Claim C1: which operands the status check uses -/

/-- C1: counterexample.  With reordering enabled the run on extC1 reports status
true, line 143 having compared the permuted system with the raw solver output,
while the residual of the original unpermuted system at the recovered persisted
solution is violated, so the status flag is not allclose of the original matrix
with the recovered solution. -/
theorem C1_counterexample :
    (pipeline cfgOrder extC1).status = true ∧
    allclose (dotMV extC1.A (pipeline cfgOrder extC1).s) extC1.b = false := by
  constructor
  · norm_num [pipeline, solvedTriple, reorder, allclose, dotMV, matmulMV, matMulM,
      transposeM, permMat, identityM, cfgOrder, defaultArgs, extC1, cyc3, vec3,
      Fin.sum_univ_three, decide_eq_true_eq, Fin.forall_fin_succ, Fin.ext_iff]
  · norm_num [pipeline, solvedTriple, reorder, allclose, dotMV, matmulMV, matMulM,
      transposeM, permMat, identityM, cfgOrder, defaultArgs, extC1, cyc3, vec3,
      Fin.sum_univ_three, decide_eq_true_eq, Fin.forall_fin_succ, Fin.ext_iff]

/-- C1 (amended): the status flag of line 143 is allclose applied to the matrix
and right-hand side actually handed to the solver together with the raw solver
output.  With reordering disabled this is exactly allclose of the original
system with the returned solution, as the claim states; with reordering enabled
it instead equals the residual check of the original system at the
transpose-recovered vector Qt s_raw, not at the recovered solution Q s_raw that
the program persists. -/
theorem C1_status_operands {n : Nat} (cfg : Args) (ext : Externals n) :
    ((pipeline cfg ext).status
        = allclose (dotMV (pipeline cfg ext).aSolved (pipeline cfg ext).sRaw)
            (pipeline cfg ext).bSolved)
    ∧ (cfg.order = false →
        (pipeline cfg ext).status = allclose (dotMV ext.A (pipeline cfg ext).s) ext.b)
    ∧ (cfg.order = true →
        (pipeline cfg ext).status
          = allclose
              (dotMV ext.A (matmulMV (transposeM (pipeline cfg ext).q) (pipeline cfg ext).sRaw))
              ext.b) := by
  refine ⟨rfl, ?_, ?_⟩
  · intro h
    have hs : (pipeline cfg ext).s = (pipeline cfg ext).sRaw := by
      rw [pipeline_s, h]
      simp
    have ha : (pipeline cfg ext).aSolved = ext.A := by
      show (solvedTriple cfg ext).2.1 = ext.A
      rw [solvedTriple_noorder ext h]
    have hb : (pipeline cfg ext).bSolved = ext.b := by
      show (solvedTriple cfg ext).2.2 = ext.b
      rw [solvedTriple_noorder ext h]
    rw [pipeline_status, ha, hb, hs]
  · intro h
    rw [pipeline_status, pipeline_aSolved_order ext h, pipeline_bSolved_order ext h,
      allclose_reorder, pipeline_q_order ext h, matmulMV_transposePermMat]

/-- C1: witness for the amended theorem at a run with reordering enabled. -/
theorem C1_witness :
    cfgOrder.order = true ∧
    (pipeline cfgOrder extC1).status
      = allclose
          (dotMV extC1.A
            (matmulMV (transposeM (pipeline cfgOrder extC1).q) (pipeline cfgOrder extC1).sRaw))
          extC1.b :=
  ⟨rfl, (C1_status_operands cfgOrder extC1).2.2 rfl⟩

/-! ## Claim C2: how the solution is recovered after a reordered solve -/

/-- C2: counterexample.  On the run extC2 with reordering enabled, the persisted
solution disagrees with the transpose of the returned permutation applied to the
raw solver output: at index 1 the program stores 1, while Qt applied to the raw
output has 0 there, so the recovery is not s = Qt s_raw. -/
theorem C2_counterexample :
    (pipeline cfgOrder extC2).s ⟨1, by omega⟩ = 1
    ∧ matmulMV (transposeM (pipeline cfgOrder extC2).q) (pipeline cfgOrder extC2).sRaw
        ⟨1, by omega⟩ = 0
    ∧ (pipeline cfgOrder extC2).s
        ≠ matmulMV (transposeM (pipeline cfgOrder extC2).q) (pipeline cfgOrder extC2).sRaw := by
  have h1 : (pipeline cfgOrder extC2).s ⟨1, by omega⟩ = 1 := by
    norm_num [pipeline, solvedTriple, reorder, allclose, dotMV, matmulMV, matMulM,
      transposeM, permMat, identityM, cfgOrder, defaultArgs, extC2, cyc3, vec3,
      Fin.sum_univ_three, decide_eq_true_eq, Fin.forall_fin_succ, Fin.ext_iff]
  have h2 : matmulMV (transposeM (pipeline cfgOrder extC2).q) (pipeline cfgOrder extC2).sRaw
      ⟨1, by omega⟩ = 0 := by
    norm_num [pipeline, solvedTriple, reorder, allclose, dotMV, matmulMV, matMulM,
      transposeM, permMat, identityM, cfgOrder, defaultArgs, extC2, cyc3, vec3,
      Fin.sum_univ_three, decide_eq_true_eq, Fin.forall_fin_succ, Fin.ext_iff]
  refine ⟨h1, h2, fun hEq => ?_⟩
  rw [hEq, h2] at h1
  exact absurd h1 (by norm_num)

/-- C2 (amended): with reordering enabled, line 148 multiplies the raw solver
output by the returned permutation matrix Q itself, not by its transpose, so
entrywise the persisted solution at i is the raw output at the preimage of i
under the spec-modelled permutation. -/
theorem C2_recovery {n : Nat} (cfg : Args) (ext : Externals n) (h : cfg.order = true) :
    (pipeline cfg ext).s = matmulMV (pipeline cfg ext).q (pipeline cfg ext).sRaw
    ∧ (pipeline cfg ext).q = permMat ext.perm
    ∧ ∀ i, (pipeline cfg ext).s i = (pipeline cfg ext).sRaw (ext.perm.symm i) := by
  have hq : (pipeline cfg ext).q = permMat ext.perm := pipeline_q_order ext h
  have hs : (pipeline cfg ext).s = matmulMV (pipeline cfg ext).q (pipeline cfg ext).sRaw := by
    rw [pipeline_s, h]
    simp
  refine ⟨hs, hq, fun i => ?_⟩
  rw [hs, hq, matmulMV_permMat]

/-- C2: witness for the amended theorem at a run with reordering enabled. -/
theorem C2_witness :
    cfgOrder.order = true ∧
    (pipeline cfgOrder extC2).s
      = matmulMV (pipeline cfgOrder extC2).q (pipeline cfgOrder extC2).sRaw :=
  ⟨rfl, (C2_recovery cfgOrder extC2 rfl).1⟩

/-! ## Claim C3: which matrix the diagnostics block is built from -/

/-- C3: counterexample.  On the run extC3 with reordering and eigen diagnostics
enabled, the top right quadrant entry of the diagnostic block matrix at row 0,
column 2 is 4, the corresponding entry of the permuted matrix, while the block
built from the original unpermuted A would carry 1 there. -/
theorem C3_counterexample :
    diagAsymAt (pipeline cfgOrderEigen extC3) ⟨0, by omega⟩ ⟨2, by omega⟩ = some 4
    ∧ blockSym extC3.A ⟨0, by omega⟩ ⟨2, by omega⟩ = 1
    ∧ diagAsymAt (pipeline cfgOrderEigen extC3) ⟨0, by omega⟩ ⟨2, by omega⟩
        ≠ some (blockSym extC3.A ⟨0, by omega⟩ ⟨2, by omega⟩) := by
  have h1 : diagAsymAt (pipeline cfgOrderEigen extC3) ⟨0, by omega⟩ ⟨2, by omega⟩ = some 4 := by
    norm_num [diagAsymAt, pipeline, solvedTriple, reorder, mkDiag, blockSym, allclose, dotMV,
      matmulMV, matMulM, transposeM, permMat, identityM, cfgOrderEigen, defaultArgs, extC3,
      swap2, matC3, Fin.sum_univ_two, decide_eq_true_eq, Fin.forall_fin_succ, Fin.ext_iff]
  have h2 : blockSym extC3.A ⟨0, by omega⟩ ⟨2, by omega⟩ = 1 := by
    norm_num [blockSym, extC3, matC3, Fin.ext_iff]
  refine ⟨h1, h2, fun hc => ?_⟩
  rw [h1, h2] at hc
  exact absurd (Option.some.inj hc) (by norm_num)

/-- C3 (amended): when eigen diagnostics are enabled the block matrix of line 158
is built from the matrix a in scope, which is the matrix handed to the solver;
with reordering enabled that matrix is the permuted Q A Qt, entrywise A at the
preimages, not the original assembled A. -/
theorem C3_diag_uses_solved {n : Nat} (cfg : Args) (ext : Externals n) (h : cfg.eigen = true) :
    ∃ d : Diag n, (pipeline cfg ext).diag = some d
      ∧ d.asym = blockSym (pipeline cfg ext).aSolved
      ∧ (cfg.order = true →
          ∀ i j, (pipeline cfg ext).aSolved i j = ext.A (ext.perm.symm i) (ext.perm.symm j)) := by
  refine ⟨mkDiag (pipeline cfg ext).aSolved ext.eigvals, ?_, rfl, ?_⟩
  · rw [pipeline_diag, h]
    simp
  · intro ho i j
    rw [pipeline_aSolved_order ext ho, reorder_aEntry]

/-- C3: witness for the amended theorem at a run with diagnostics enabled. -/
theorem C3_witness :
    cfgOrderEigen.eigen = true ∧
    ∃ d : Diag 2, (pipeline cfgOrderEigen extC3).diag = some d
      ∧ d.asym = blockSym (pipeline cfgOrderEigen extC3).aSolved :=
  ⟨rfl, Exists.imp (fun _d hd => ⟨hd.1, hd.2.1⟩)
    (C3_diag_uses_solved cfgOrderEigen extC3 rfl)⟩

/-! ## Claim C4: the disabled-reorder branch is a no-op -/

/-- C4: with reordering disabled, q is the identity matrix of the row count of
the assembled matrix (line 138) and the matrix and right-hand side handed to
the solver are the assembled A and b unchanged (lines 141 and 142). -/
theorem C4_identity_noop {n : Nat} (cfg : Args) (ext : Externals n) (h : cfg.order = false) :
    (pipeline cfg ext).q = identityM n
    ∧ (pipeline cfg ext).aSolved = ext.A
    ∧ (pipeline cfg ext).bSolved = ext.b
    ∧ (pipeline cfg ext).sRaw = ext.solver ext.A ext.b := by
  have hst : solvedTriple cfg ext = (identityM n, ext.A, ext.b) := solvedTriple_noorder ext h
  refine ⟨?_, ?_, ?_, ?_⟩
  · show (solvedTriple cfg ext).1 = identityM n
    rw [hst]
  · show (solvedTriple cfg ext).2.1 = ext.A
    rw [hst]
  · show (solvedTriple cfg ext).2.2 = ext.b
    rw [hst]
  · show ext.solver (solvedTriple cfg ext).2.1 (solvedTriple cfg ext).2.2 = ext.solver ext.A ext.b
    rw [hst]

/-- C4: witness at a run with reordering disabled. -/
theorem C4_witness :
    defaultArgs.order = false ∧ (pipeline defaultArgs ext1).q = identityM 1 :=
  ⟨rfl, (C4_identity_noop defaultArgs ext1 rfl).1⟩

/-! ## Claim C5: exit codes of read_args -/

/-- C5: counterexample.  On the argument vector consisting of -h alone, parsing
succeeds and the default empty input path names no file, yet the program exits
with code 0 rather than 3; and on the vector -h followed by a bare -i, the -h
flag is given yet parsing fails and the exit code is 2 rather than 0.  So the
claim read literally fails in its file-missing and help clauses. -/
theorem C5_counterexample :
    getopt [hOpt] shortSpec longSpec = Except.ok ([(hOpt, [])], [])
    ∧ (fun _ : PyStr => false) [] = false
    ∧ read_args (fun _ => false) [hOpt] = ReadArgsResult.exit 0
    ∧ ReadArgsResult.exit 0 ≠ ReadArgsResult.exit 3
    ∧ read_args (fun _ => false) [hOpt, iOpt] = ReadArgsResult.exit 2 :=
  ⟨rfl, rfl, by decide, by decide, by decide⟩

/-- C5 (amended): a getopt failure exits with code 2; when parsing succeeds the
run exits with code 0 exactly when -h occurs among the parsed options, the help
branch taking priority over the file check; and when parsing succeeds, the
option loop completes without -h, and the configured input file is absent, the
exit code is 3. -/
theorem C5_exit_codes (isf : PyStr → Bool) (argv : List PyStr) :
    (∀ e, getopt argv shortSpec longSpec = Except.error e →
      read_args isf argv = ReadArgsResult.exit 2)
    ∧ (read_args isf argv = ReadArgsResult.exit 0 ↔
        ∃ opts rest, getopt argv shortSpec longSpec = Except.ok (opts, rest)
          ∧ opts.any (fun oa => oa.1 == hOpt) = true)
    ∧ (∀ opts rest cfg, getopt argv shortSpec longSpec = Except.ok (opts, rest) →
        procOpts opts defaultArgs = some cfg → isf cfg.inputfile = false →
        read_args isf argv = ReadArgsResult.exit 3) := by
  cases hg : getopt argv shortSpec longSpec with
  | error e =>
    refine ⟨fun _ _ => ?_, ?_, fun opts rest cfg hok _ _ => ?_⟩
    · simp [read_args, hg]
    · constructor
      · intro h0
        rw [show read_args isf argv = ReadArgsResult.exit 2 from by simp [read_args, hg]] at h0
        exact absurd h0 (by decide)
      · rintro ⟨opts, rest, hok, _⟩
        exact absurd hok (by simp)
    · exact absurd hok (by simp)
  | ok pr =>
    obtain ⟨opts, rest⟩ := pr
    refine ⟨fun e he => ?_, ?_, fun opts2 rest2 cfg hok hpo hfl => ?_⟩
    · exact absurd he (by simp)
    · cases hp : procOpts opts defaultArgs with
      | none =>
        have hany := (procOpts_none_iff opts defaultArgs).mp hp
        constructor
        · intro _
          exact ⟨opts, rest, rfl, hany⟩
        · intro _
          simp [read_args, hg, hp]
      | some cfg =>
        have hany : opts.any (fun oa => oa.1 == hOpt) = false := by
          cases hval : opts.any (fun oa => oa.1 == hOpt) with
          | false => rfl
          | true =>
            rw [← procOpts_none_iff opts defaultArgs] at hval
            rw [hval] at hp
            exact absurd hp (by simp)
        have hra2 : read_args isf argv
            = if isf cfg.inputfile then ReadArgsResult.ok cfg else ReadArgsResult.exit 3 := by
          simp [read_args, hg, hp]
        constructor
        · intro h0
          rw [hra2] at h0
          by_cases hisf : isf cfg.inputfile = true
          · rw [if_pos hisf] at h0
            exact absurd h0 (by simp)
          · rw [if_neg hisf] at h0
            exact absurd h0 (by decide)
        · rintro ⟨opts2, rest2, hok2, hany2⟩
          obtain ⟨h1, h2⟩ : opts = opts2 ∧ rest = rest2 := by simpa using hok2
          rw [← h1] at hany2
          rw [hany2] at hany
          exact absurd hany (by decide)
    · obtain ⟨h1, h2⟩ : opts = opts2 ∧ rest = rest2 := by simpa using hok
      rw [← h1] at hpo
      simp [read_args, hg, hpo, hfl]

/-- C5: witness for the amended theorem on an unknown flag, exercising the
usage-error clause. -/
theorem C5_witness :
    getopt [[ '-', 'x']] shortSpec longSpec = Except.error "option not recognized"
    ∧ read_args (fun _ => false) [[ '-', 'x']] = ReadArgsResult.exit 2 :=
  ⟨rfl, (C5_exit_codes (fun _ => false) [[ '-', 'x']]).1 "option not recognized" rfl⟩

/-! ## Claim C9: behaviour when -i is absent -/

/-- C9: counterexample.  The argument vector -h has no -i flag yet exits with
code 0, and the vector -x has no -i flag yet exits with the usage-error code 2,
so the claim that every -i-less vector reaches the missing-file exit 3 fails. -/
theorem C9_counterexample :
    read_args (fun _ => false) [hOpt] = ReadArgsResult.exit 0
    ∧ read_args (fun _ => false) [[ '-', 'x']] = ReadArgsResult.exit 2
    ∧ ReadArgsResult.exit 0 ≠ ReadArgsResult.exit 3
    ∧ ReadArgsResult.exit 2 ≠ ReadArgsResult.exit 3 := by
  refine ⟨by decide, by decide, by decide, by decide⟩

/-- C9 (amended): on every argument vector that getopt parses successfully and
whose parsed options contain neither -h nor -i (nor the long form of i), the
input path keeps its empty default, which names no file, and read_args exits
with code 3, not 2. -/
theorem C9_missing_input (isf : PyStr → Bool) (argv : List PyStr)
    (opts : List (PyStr × PyStr)) (rest : List PyStr)
    (hf : isf [] = false)
    (hok : getopt argv shortSpec longSpec = Except.ok (opts, rest))
    (hno : opts.all (fun oa => !(oa.1 == hOpt) && !(oa.1 == iOpt) && !(oa.1 == iiOpt)) = true) :
    read_args isf argv = ReadArgsResult.exit 3 := by
  obtain ⟨cfg, hcfg, hin⟩ := procOpts_no_input opts defaultArgs hno
  have hemp : cfg.inputfile = [] := hin
  simp [read_args, hok, hcfg, hemp, hf]

/-- C9: witness at the argument vector -d, which parses with no -h and no -i. -/
theorem C9_witness :
    getopt [[ '-', 'd']] shortSpec longSpec = Except.ok ([([ '-', 'd'], [])], [])
    ∧ read_args (fun _ => false) [[ '-', 'd']] = ReadArgsResult.exit 3 :=
  ⟨rfl, C9_missing_input (fun _ => false) [[ '-', 'd']] [([ '-', 'd'], [])] [] rfl rfl
    (by decide)⟩

/-! ## Claim C10: the -c value is never validated -/

/-- C10: for every string v supplied to -c and every existing input file path,
parsing succeeds and read_args returns v unchanged as the cut axis with all
other flags at their defaults; no membership check against x, y, z happens. -/
theorem C10_cut_accepted (isf : PyStr → Bool) (v fpath : PyStr) (hf : isf fpath = true) :
    getopt [iOpt, fpath, cOpt, v] shortSpec longSpec
      = Except.ok ([(iOpt, fpath), (cOpt, v)], [])
    ∧ read_args isf [iOpt, fpath, cOpt, v]
      = ReadArgsResult.ok
          { inputfile := fpath, mplot := false, splot := false, cut3d := v,
            degen := false, eigen := false, order := false, psplt := false } := by
  have hg : getopt [iOpt, fpath, cOpt, v] shortSpec longSpec
      = Except.ok ([(iOpt, fpath), (cOpt, v)], []) := rfl
  have hp : procOpts [(iOpt, fpath), (cOpt, v)] defaultArgs
      = some
          { inputfile := fpath, mplot := false, splot := false, cut3d := v,
            degen := false, eigen := false, order := false, psplt := false } := rfl
  exact ⟨hg, by simp [read_args, hg, hp, hf]⟩

/-- C10: witness with the cut value q, which is outside x, y, z. -/
theorem C10_witness :
    (fun s : PyStr => s == [ 'f']) [ 'f'] = true
    ∧ read_args (fun s : PyStr => s == [ 'f']) [iOpt, [ 'f'], cOpt, [ 'q']]
      = ReadArgsResult.ok
          { inputfile := [ 'f'], mplot := false, splot := false, cut3d := [ 'q'],
            degen := false, eigen := false, order := false, psplt := false } :=
  ⟨rfl, (C10_cut_accepted (fun s : PyStr => s == [ 'f']) [ 'q'] [ 'f'] rfl).2⟩

/-! ## Claim C6: a failing residual is a soft failure -/

/-- C6: in every run whose residual check fails, both persistence writes still
happen with the full case record carrying the false status and the computed
solution, and each requested plot is produced with that same failing solution;
nothing terminates the run on a false status. -/
theorem C6_soft_failure {n : Nat} (cfg : Args) (ext : Externals n)
    (h : (pipeline cfg ext).status = false) :
    Event.saveNpzE (pipeline cfg ext).aSolved (pipeline cfg ext).bSolved (pipeline cfg ext).s
        (pipeline cfg ext).q false ∈ (pipeline cfg ext).events
    ∧ Event.saveBinE (pipeline cfg ext).aSolved (pipeline cfg ext).bSolved (pipeline cfg ext).s
        (pipeline cfg ext).q false ∈ (pipeline cfg ext).events
    ∧ (cfg.splot = true →
        Event.plotSolE (pipeline cfg ext).s false ∈ (pipeline cfg ext).events)
    ∧ (cfg.mplot = true → Event.plotMatE ∈ (pipeline cfg ext).events) := by
  refine ⟨?_, ?_, fun hs => ?_, fun hm => ?_⟩
  · rw [pipeline_events, h]
    simp
  · rw [pipeline_events, h]
    simp
  · rw [pipeline_events, h]
    simp [hs]
  · rw [pipeline_events]
    simp [hm]

/-- C6: witness at a size one run whose solver output fails the residual. -/
theorem C6_witness :
    (pipeline cfgPlots extBad).status = false
    ∧ Event.saveNpzE (pipeline cfgPlots extBad).aSolved (pipeline cfgPlots extBad).bSolved
        (pipeline cfgPlots extBad).s (pipeline cfgPlots extBad).q false
        ∈ (pipeline cfgPlots extBad).events := by
  have h : (pipeline cfgPlots extBad).status = false := by
    norm_num [pipeline, solvedTriple, reorder, allclose, dotMV, matmulMV, matMulM,
      transposeM, permMat, identityM, cfgPlots, defaultArgs, extBad,
      Fin.sum_univ_one, decide_eq_true_eq, Fin.forall_fin_succ, Fin.ext_iff]
  exact ⟨h, (C6_soft_failure cfgPlots extBad h).1⟩

/-! ## Claim C7: content of the eigen diagnostics -/

/-- C7: with eigen diagnostics enabled the program builds the doubled block
matrix whose quadrants are zeros, the matrix a in scope, its transpose and
zeros, hands the whole matrix to the eigenvalue routine, and reports the
minimum and maximum absolute eigenvalue and their ratio as the condition
number. -/
theorem C7_eigen_diag {n : Nat} (cfg : Args) (ext : Externals n) (h : cfg.eigen = true) :
    ∃ d : Diag n, (pipeline cfg ext).diag = some d
      ∧ (∀ i j : Fin n,
          d.asym (finL i) (finL j) = 0
          ∧ d.asym (finL i) (finR j) = (pipeline cfg ext).aSolved i j
          ∧ d.asym (finR i) (finL j) = (pipeline cfg ext).aSolved j i
          ∧ d.asym (finR i) (finR j) = 0)
      ∧ d.evals = ext.eigvals d.asym
      ∧ d.emin = listMin (d.evals.map (fun x => |x|))
      ∧ d.emax = listMax (d.evals.map (fun x => |x|))
      ∧ d.kappa = d.emax / d.emin := by
  refine ⟨mkDiag (pipeline cfg ext).aSolved ext.eigvals, ?_, ?_, rfl, rfl, rfl, rfl⟩
  · rw [pipeline_diag, h]
    simp
  · intro i j
    exact ⟨blockSym_LL _ i j, blockSym_LR _ i j, blockSym_RL _ i j, blockSym_RR _ i j⟩

/-- C7: witness at a size one run with diagnostics enabled. -/
theorem C7_witness :
    cfgEigenOnly.eigen = true
    ∧ ∃ d : Diag 1, (pipeline cfgEigenOnly ext1).diag = some d
        ∧ d.kappa = d.emax / d.emin :=
  ⟨rfl, Exists.imp (fun _d hd => ⟨hd.1, hd.2.2.2.2.2⟩)
    (C7_eigen_diag cfgEigenOnly ext1 rfl)⟩

/-! ## Claim C8: order of the pipeline stages -/

/-- The stage list of a run as a function of the four branching flags alone. -/
def tagListFor (order2 eigen2 splot2 mplot2 : Bool) : List Tag :=
  [Tag.configT, Tag.meshT, Tag.assembleT]
  ++ (if order2 then [Tag.reorderT] else [])
  ++ [Tag.solveT, Tag.saveNpzT, Tag.saveBinT]
  ++ (if eigen2 then [Tag.diagT] else [])
  ++ (if splot2 then [Tag.plotSolT] else [])
  ++ (if mplot2 then [Tag.plotMatT] else [])

lemma runTags_pipeline {n : Nat} (cfg : Args) (ext : Externals n) :
    runTags (pipeline cfg ext) = tagListFor cfg.order cfg.eigen cfg.splot cfg.mplot := by
  obtain ⟨inp, mp, sp, c3, dg, ei, od, ps⟩ := cfg
  cases od <;> cases ei <;> cases sp <;> cases mp <;> rfl

lemma tagListFor_order (order2 eigen2 splot2 mplot2 : Bool) :
    precedesB (tagListFor order2 eigen2 splot2 mplot2) Tag.configT Tag.meshT = true
    ∧ precedesB (tagListFor order2 eigen2 splot2 mplot2) Tag.meshT Tag.assembleT = true
    ∧ precedesB (tagListFor order2 eigen2 splot2 mplot2) Tag.assembleT Tag.solveT = true
    ∧ precedesB (tagListFor order2 eigen2 splot2 mplot2) Tag.solveT Tag.saveNpzT = true
    ∧ precedesB (tagListFor order2 eigen2 splot2 mplot2) Tag.saveNpzT Tag.saveBinT = true
    ∧ (order2 = true →
        precedesB (tagListFor order2 eigen2 splot2 mplot2) Tag.assembleT Tag.reorderT = true
        ∧ precedesB (tagListFor order2 eigen2 splot2 mplot2) Tag.reorderT Tag.solveT = true)
    ∧ (eigen2 = true →
        precedesB (tagListFor order2 eigen2 splot2 mplot2) Tag.saveBinT Tag.diagT = true)
    ∧ (splot2 = true →
        precedesB (tagListFor order2 eigen2 splot2 mplot2) Tag.saveBinT Tag.plotSolT = true
        ∧ (eigen2 = true →
            precedesB (tagListFor order2 eigen2 splot2 mplot2) Tag.diagT Tag.plotSolT = true))
    ∧ (mplot2 = true →
        precedesB (tagListFor order2 eigen2 splot2 mplot2) Tag.saveBinT Tag.plotMatT = true) := by
  cases order2 <;> cases eigen2 <;> cases splot2 <;> cases mplot2 <;> decide

/-- C8: counterexample.  On a run with eigen diagnostics enabled, the
diagnostics stage does not precede the first persistence write; the write
precedes the diagnostics, lines 151 and 152 running before lines 155 to 166. -/
theorem C8_counterexample :
    precedesB (runTags (pipeline cfgEigenOnly ext1)) Tag.diagT Tag.saveNpzT = false
    ∧ precedesB (runTags (pipeline cfgEigenOnly ext1)) Tag.saveNpzT Tag.diagT = true := by
  exact ⟨by decide, by decide⟩

/-- C8 (amended): in every run the stages execute in the order configuration,
mesh generation, operator assembly, optional reorder, solve, the two
persistence writes, optional diagnostics, optional plotting; in particular
diagnostics, when enabled, run after both persistence writes. -/
theorem C8_stage_order {n : Nat} (cfg : Args) (ext : Externals n) :
    precedesB (runTags (pipeline cfg ext)) Tag.configT Tag.meshT = true
    ∧ precedesB (runTags (pipeline cfg ext)) Tag.meshT Tag.assembleT = true
    ∧ precedesB (runTags (pipeline cfg ext)) Tag.assembleT Tag.solveT = true
    ∧ precedesB (runTags (pipeline cfg ext)) Tag.solveT Tag.saveNpzT = true
    ∧ precedesB (runTags (pipeline cfg ext)) Tag.saveNpzT Tag.saveBinT = true
    ∧ (cfg.order = true →
        precedesB (runTags (pipeline cfg ext)) Tag.assembleT Tag.reorderT = true
        ∧ precedesB (runTags (pipeline cfg ext)) Tag.reorderT Tag.solveT = true)
    ∧ (cfg.eigen = true →
        precedesB (runTags (pipeline cfg ext)) Tag.saveBinT Tag.diagT = true)
    ∧ (cfg.splot = true →
        precedesB (runTags (pipeline cfg ext)) Tag.saveBinT Tag.plotSolT = true
        ∧ (cfg.eigen = true →
            precedesB (runTags (pipeline cfg ext)) Tag.diagT Tag.plotSolT = true))
    ∧ (cfg.mplot = true →
        precedesB (runTags (pipeline cfg ext)) Tag.saveBinT Tag.plotMatT = true) := by
  rw [runTags_pipeline]
  exact tagListFor_order cfg.order cfg.eigen cfg.splot cfg.mplot

/-- C8: witness extracting the persist-before-diagnostics clause on a run with
diagnostics enabled. -/
theorem C8_witness :
    cfgEigenOnly.eigen = true
    ∧ precedesB (runTags (pipeline cfgEigenOnly ext1)) Tag.saveBinT Tag.diagT = true :=
  ⟨rfl, (C8_stage_order cfgEigenOnly ext1).2.2.2.2.2.2.1 rfl⟩

end LQles
